import Mathlib

/-!
Verification development for the md-xformer template-driven rendering
pipeline (`src/transform.ts`) and the debounced watch/build coordinator
(`src/watch.ts`).

Strings are modelled as lists of Unicode scalar values (`List Char`).
JavaScript string primitives used by the source (`String.prototype.split`
followed by `Array.prototype.join`, `trim`, `toLowerCase` on the ASCII
range, `includes`, markdown-it's `escapeHtml`) are embedded below as
executable Lean functions.  Placeholder braces inside string literals are
written with the escapes \x7b (left brace) and \x7d (right brace).
-/

namespace MdXformer

/-- Strings are lists of Unicode scalar values. -/
abbrev Str := List Char

/-- Convert a Lean string literal to the `Str` model. -/
def str (s : String) : Str := s.data

/-- `startsWith l pat` is true when `pat` is a prefix of `l`
(JS `String.prototype.startsWith`, used to scan for placeholder
occurrences). -/
def startsWith : Str → Str → Bool
  | _, [] => true
  | [], _ :: _ => false
  | c :: cs, p :: ps => c = p && startsWith cs ps

/-- `containsSub l sub` models JS `l.includes(sub)`: `sub` occurs as a
contiguous substring of `l`. -/
def containsSub : Str → Str → Bool
  | l, sub =>
    if startsWith l sub then true
    else
      match l with
      | [] => false
      | _ :: cs => containsSub cs sub

/-- Splitting scan for a non-empty separator `s0 :: stail`: at each
position, if the separator starts there, a part boundary is emitted and
the scan resumes after the consumed occurrence; otherwise the character
is prepended to the first part of the rest.  This is the leftmost,
non-overlapping semantics of JS `String.prototype.split`. -/
def jsSplitAux (s0 : Char) (stail : Str) : Str → List Str
  | [] => [[]]
  | c :: cs =>
    if startsWith (c :: cs) (s0 :: stail) then
      [] :: jsSplitAux s0 stail (cs.drop stail.length)
    else
      let out := jsSplitAux s0 stail cs
      (c :: out.headD []) :: out.tail
termination_by l => l.length
decreasing_by
  · simp only [List.length_drop, List.length_cons]
    omega
  · simp only [List.length_cons]
    omega

/-- JS `l.split(sep)`.  An empty separator splits into one-character
strings (so `"".split("")` is the empty array). -/
def jsSplit (l sep : Str) : List Str :=
  match sep with
  | [] => l.map (fun c => [c])
  | s0 :: stail => jsSplitAux s0 stail l

/-- JS `Array.prototype.join` over string parts. -/
def joinSep (rep : Str) : List Str → Str
  | [] => []
  | [p] => p
  | p :: ps => p ++ rep ++ joinSep rep ps

/-- `jsSplitJoin l sep rep` models JS `l.split(sep).join(rep)`, the
replace-all idiom of the substitution engine. -/
def jsSplitJoin (l sep rep : Str) : Str := joinSep rep (jsSplit l sep)

/-- markdown-it `utils.escapeHtml` replaces the four characters
`&`, `<`, `>`, `"` with their HTML entities (see
markdown-it `lib/common/utils`). -/
def escapeChar (c : Char) : Str :=
  if c = '&' then str "&amp;"
  else if c = '<' then str "&lt;"
  else if c = '>' then str "&gt;"
  else if c = '"' then str "&quot;"
  else [c]

/-- Character-wise HTML escaping of a whole string. -/
def escapeHtml (l : Str) : Str :=
  l.foldr (fun c acc => escapeChar c ++ acc) []

/-- The JS whitespace class: the characters matched by regex `\s` and
removed by `String.prototype.trim` (WhiteSpace ∪ LineTerminator). -/
def jsIsWhitespace (c : Char) : Bool :=
  let n := c.toNat
  (9 ≤ n && n ≤ 13) || n = 32 || n = 0xa0 || n = 0x1680 ||
  (0x2000 ≤ n && n ≤ 0x200a) || n = 0x2028 || n = 0x2029 ||
  n = 0x202f || n = 0x205f || n = 0x3000 || n = 0xfeff

/-- JS `String.prototype.trim`: strip leading and trailing whitespace. -/
def jsTrim (l : Str) : Str :=
  ((l.dropWhile jsIsWhitespace).reverse.dropWhile jsIsWhitespace).reverse

/-- JS `String.prototype.toLowerCase`, modelled on the ASCII range
(`A`–`Z` map to `a`–`z`; every other scalar is fixed).  The source only
ever lowercases HTML tag names such as `H2`, which are ASCII. -/
def jsToLower (c : Char) : Char :=
  if 0x41 ≤ c.toNat ∧ c.toNat ≤ 0x5a then Char.ofNat (c.toNat + 32) else c

/-- Lowercase a whole string. -/
def jsToLowerStr (l : Str) : Str := l.map jsToLower

/-! ## Template registry and placeholder substitution
(`src/transform.ts`, `src/templates.ts`).

The template registry loaded by `loadTemplates` is a `Map<string, string>`
with unique keys; it is modelled as an association list queried with
`List.lookup`.  A `Record<string, string>` of template variables is
modelled as an association list in `Object.entries` order, and a
`Set<string>` of raw-variable names as a list in insertion order. -/

/-- The template registry: lowercase element key → template string. -/
abbrev Templates := List (Str × Str)

/-- `Map.prototype.get`: look up a template by key. -/
def getTemplate (tm : Templates) (k : Str) : Option Str := tm.lookup k

/-- The escaping placeholder for a variable: `{{ name }}`. -/
def varPh (k : Str) : Str := str "\x7b\x7b " ++ k ++ str " \x7d\x7d"

/-- The raw placeholder for a variable: `{{{ name }}}`. -/
def rawPh (k : Str) : Str := str "\x7b\x7b\x7b " ++ k ++ str " \x7d\x7d\x7d"

/-- `applyTemplate` (transform.ts): single-slot engine.  With no template
registered for `tag` it returns the plain-tag fallback
`<tag>innerHtml</tag>`; otherwise it replaces every `{{ tag }}`
occurrence with `innerHtml` by one `split`/`join`.  The `verbose` flag
only controls a `console.warn` advisory and never changes the output. -/
def applyTemplate (tm : Templates) (tag innerHtml : Str) (_verbose : Bool) :
    Str :=
  match getTemplate tm tag with
  | none => str "<" ++ tag ++ str ">" ++ innerHtml ++ str "</" ++ tag ++ str ">"
  | some t => jsSplitJoin t (varPh tag) innerHtml

/-- `applyTemplatePlaceholder` (transform.ts): multi-slot engine.  With no
template it returns `<tag>vars[tag]</tag>` (JS renders a missing key as
the text `undefined`); otherwise it folds over the variables in
`Object.entries` order, each step replacing every `{{ key }}` occurrence
in the current output by the value via `split`/`join`. -/
def applyTemplatePlaceholder (tm : Templates) (tag : Str)
    (vars : List (Str × Str)) (_verbose : Bool) : Str :=
  match getTemplate tm tag with
  | none =>
    str "<" ++ tag ++ str ">" ++ ((vars.lookup tag).getD (str "undefined")) ++
      str "</" ++ tag ++ str ">"
  | some t =>
    vars.foldl (fun out kv => jsSplitJoin out (varPh kv.1) kv.2) t

/-- `applyTemplateWithRawHtml` (transform.ts): multi-slot engine with a
raw-name set.  Missing template → empty string (fallback is the caller's
job).  First pass: for each raw name, if its `{{{ name }}}` placeholder
occurs in the current output, replace all its occurrences with the value
verbatim (`vars[key] ?? ""`).  Second pass: for each non-raw variable,
replace all `{{ key }}` occurrences with the HTML-escaped value. -/
def applyTemplateWithRawHtml (tm : Templates) (tag : Str)
    (vars : List (Str × Str)) (rawVars : List Str) (_verbose : Bool) : Str :=
  match getTemplate tm tag with
  | none => []
  | some t =>
    let afterRaw := rawVars.foldl
      (fun out key =>
        let value := (vars.lookup key).getD []
        let ph := rawPh key
        if containsSub out ph then jsSplitJoin out ph value else out) t
    vars.foldl
      (fun out kv =>
        if rawVars.contains kv.1 then out
        else jsSplitJoin out (varPh kv.1) (escapeHtml kv.2)) afterRaw

/-! ## Slugifier (`slugify`, transform.ts)

The source pipeline: `toLowerCase`, `trim`, replace every run matching
the class "not in [\w U+3000..U+9FFF]" with one hyphen, collapse hyphen
runs to one hyphen, then remove one leading and one trailing hyphen. -/

/-- Regex `\w`: ASCII letters, digits and underscore. -/
def isWordChar (c : Char) : Bool :=
  let n := c.toNat
  (0x61 ≤ n && n ≤ 0x7a) || (0x41 ≤ n && n ≤ 0x5a) ||
  (0x30 ≤ n && n ≤ 0x39) || n = 0x5f

/-- The script-preservation range `　-鿿` of the slugifier. -/
def isCJKPreserved (c : Char) : Bool :=
  0x3000 ≤ c.toNat && c.toNat ≤ 0x9fff

/-- A character the slugifier keeps: inside `[\w　-鿿]`. -/
def slugKeep (c : Char) : Bool := isWordChar c || isCJKPreserved c

/-- `collapseRunsAux p rep inRun l`: replace every maximal run of
characters satisfying `p` with the single character `rep` — the semantics
of `String.prototype.replace` with a global regex `X+` and a one-character
replacement.  `inRun` records whether the previous character was part of
a run. -/
def collapseRunsAux (p : Char → Bool) (rep : Char) : Bool → Str → Str
  | _, [] => []
  | inRun, c :: cs =>
    if p c then
      if inRun then collapseRunsAux p rep true cs
      else rep :: collapseRunsAux p rep true cs
    else c :: collapseRunsAux p rep false cs

/-- Replace every maximal run of `p`-characters with `rep`. -/
def collapseRuns (p : Char → Bool) (rep : Char) (l : Str) : Str :=
  collapseRunsAux p rep false l

/-- Drop one leading hyphen, when present (the `^-` alternative of the
final regex). -/
def stripLeadHyphen : Str → Str
  | [] => []
  | c :: cs => if c = '-' then cs else c :: cs

/-- `.replace(/^-|-$/g, "")`: remove one leading and one trailing
hyphen. -/
def stripEdgeHyphens (l : Str) : Str :=
  ((stripLeadHyphen l).reverse |> stripLeadHyphen).reverse

/-- `slugify` (transform.ts): lowercase, trim, replace runs outside
`[\w　-鿿]` with a single hyphen, collapse hyphen runs, strip one
leading/trailing hyphen. -/
def slugify (l : Str) : Str :=
  stripEdgeHyphens
    (collapseRuns (fun c => c = '-') '-'
      (collapseRuns (fun c => !slugKeep c) '-'
        (jsTrim (jsToLowerStr l))))

/-! ## Code-block renderer (`renderFence`, transform.ts)

The markdown-it tokenizer and the highlight.js highlighter are external
collaborators.  A token carries the fields the transform reads; the
highlighter is a parameter with `getLanguage` (does it know the
language?) and `highlight`, whose thrown exception is modelled as
`Except.error`. -/

/-- The fields of a markdown-it `Token` read by the transform.
`children` is `null`-able in markdown-it, hence the `Option`. -/
structure Token where
  type : Str
  tag : Str
  content : Str
  info : Str
  children : Option (List Token)

/-- The highlight.js collaborator.  `highlight code lang` returns the
highlighted markup (`.value`) or `Except.error ()` when the call
throws. -/
structure Hljs where
  getLanguage : Str → Bool
  highlight : Str → Str → Except Unit Str

/-- Language extraction in `renderFence`: trim the info string
(`token.info ? token.info.trim() : ""`; the JS conditional is absorbed
because trimming the empty string is the empty string) and take the
first whitespace-delimited token (regex `^(\S+)`, which after trimming
is the maximal leading run of non-whitespace). -/
def fenceRawLang (info : Str) : Str :=
  (jsTrim info).takeWhile (fun c => !jsIsWhitespace c)

/-- `rawLang || "text"`: the language exposed to templates. -/
def fenceLang (info : Str) : Str :=
  if fenceRawLang info = [] then str "text" else fenceRawLang info

/-- The highlight attempt of `renderFence`: when a language was declared
and the highlighter knows it, try highlighting — on success
`(isSupported, highlightedHtml) = (true, result)`, on a thrown exception
`(false, escaped code)`; otherwise `(false, escaped code)`. -/
def fenceHighlight (hl : Hljs) (code rawLang : Str) : Bool × Str :=
  if rawLang ≠ [] ∧ hl.getLanguage rawLang then
    match hl.highlight code rawLang with
    | .ok v => (true, v)
    | .error _ => (false, escapeHtml code)
  else
    (false, escapeHtml code)

/-- The render context `renderFence` passes to the substitution engine:
`lang`, `code` (the highlight result), `raw` (the original code text),
in `Object.entries` order. -/
def fenceVars (hl : Hljs) (tok : Token) : List (Str × Str) :=
  [(str "lang", fenceLang tok.info),
   (str "code", (fenceHighlight hl tok.content (fenceRawLang tok.info)).2),
   (str "raw", tok.content)]

/-- The default wrapper emitted when the `codeblock` template is absent
or substitutes to the empty string: the `language-*` class appears only
when highlighting succeeded. -/
def defaultFenceWrapper (rawLang : Str) (isSupported : Bool)
    (highlightedHtml : Str) : Str :=
  str "<pre><code class=\"hljs" ++
    (if isSupported then str " language-" ++ rawLang else []) ++
    str "\">" ++ highlightedHtml ++ str "</code></pre>\n"

/-- `renderFence` (transform.ts): render one fence token.  The
`codeblock` template is attempted via `applyTemplateWithRawHtml` with
`code` flagged raw; a truthy (non-empty) result is returned as-is, and
otherwise the default wrapper is emitted. -/
def renderFence (hl : Hljs) (tm : Templates) (tok : Token) (verbose : Bool) :
    Str :=
  let code := tok.content
  let rawLang := fenceRawLang tok.info
  let hres := fenceHighlight hl code rawLang
  let template :=
    applyTemplateWithRawHtml tm (str "codeblock") (fenceVars hl tok)
      [str "code"] verbose
  if template ≠ [] then template
  else defaultFenceWrapper rawLang hres.1 hres.2

/-! ## Block dispatch walker (`transformMarkdownToHtml`, transform.ts)

The source function parses the markdown with the external markdown-it
tokenizer and then walks the token list; the walk is embedded here over
an arbitrary token list, with the collaborator's default per-token
renderer (`defaultRenderToken`) and inline renderer
(`renderer.renderInline`) as function parameters. -/

/-- The heading render context `{[tag]: inner, id}`.  A JS object
literal keeps one entry per key: if the computed key `tag` collides with
`id`, the later `id` property overwrites the first. -/
def headingVars (tag inner id : Str) : List (Str × Str) :=
  if tag = str "id" then [(str "id", id)]
  else [(tag, inner), (str "id", id)]

/-- The token walk of `transformMarkdownToHtml`.  `dr` is the
collaborator's default single-token rendering and `ri` its inline
rendering.  A heading-open (or paragraph-open) token must be followed by
an `inline` token; if so, the template path renders the pair and the
token after the inline is consumed without inspection (`i += 2` plus the
loop increment); if not, the open token alone is default-rendered and
the walk resumes at the next token.  Fences are handled by
`renderFence`; every other token is default-rendered. -/
def transformMarkdownToHtml (hl : Hljs) (tm : Templates) (dr : Token → Str)
    (ri : List Token → Str) (verbose : Bool) : List Token → Str
  | [] => []
  | [tok] =>
    -- the loop's final iteration: `tokens[i + 1]` is undefined, so the
    -- non-inline branch fires for heading/paragraph opens
    if tok.type = str "heading_open" then dr tok
    else if tok.type = str "paragraph_open" then dr tok
    else if tok.type = str "fence" then renderFence hl tm tok verbose
    else dr tok
  | [tok, inline] =>
    -- penultimate iteration: an open/inline pair at the end of the
    -- stream is rendered via the template path and `i += 2` ends the loop
    if tok.type = str "heading_open" then
      if inline.type = str "inline" then
        applyTemplatePlaceholder tm (jsToLowerStr tok.tag)
          (headingVars (jsToLowerStr tok.tag)
            (ri (inline.children.getD []))
            (slugify (ri (inline.children.getD [])))) verbose
      else dr tok ++ transformMarkdownToHtml hl tm dr ri verbose [inline]
    else if tok.type = str "paragraph_open" then
      if inline.type = str "inline" then
        applyTemplate tm (str "p") (ri (inline.children.getD [])) verbose
      else dr tok ++ transformMarkdownToHtml hl tm dr ri verbose [inline]
    else if tok.type = str "fence" then
      renderFence hl tm tok verbose ++
        transformMarkdownToHtml hl tm dr ri verbose [inline]
    else dr tok ++ transformMarkdownToHtml hl tm dr ri verbose [inline]
  | tok :: inline :: close :: rest =>
    if tok.type = str "heading_open" then
      if inline.type = str "inline" then
        -- `i += 2` plus the loop increment: `close` is consumed without
        -- being inspected
        applyTemplatePlaceholder tm (jsToLowerStr tok.tag)
          (headingVars (jsToLowerStr tok.tag)
            (ri (inline.children.getD []))
            (slugify (ri (inline.children.getD [])))) verbose ++
          transformMarkdownToHtml hl tm dr ri verbose rest
      else
        dr tok ++ transformMarkdownToHtml hl tm dr ri verbose (inline :: close :: rest)
    else if tok.type = str "paragraph_open" then
      if inline.type = str "inline" then
        applyTemplate tm (str "p") (ri (inline.children.getD [])) verbose ++
          transformMarkdownToHtml hl tm dr ri verbose rest
      else
        dr tok ++ transformMarkdownToHtml hl tm dr ri verbose (inline :: close :: rest)
    else if tok.type = str "fence" then
      renderFence hl tm tok verbose ++
        transformMarkdownToHtml hl tm dr ri verbose (inline :: close :: rest)
    else
      dr tok ++ transformMarkdownToHtml hl tm dr ri verbose (inline :: close :: rest)

/-! ## Watch/build coordinator (`runRebuild`, watch.ts)

The coordinator state is the `WatchContext` fields the rebuild logic
mutates: the pending changed-file set (`ctx.changedFiles`, a JS `Set`
modelled as a duplicate-free list in insertion order) and the
single-flight flag (`ctx.isRebuilding`).  `started`/`finished` are proof
instrumentation counting rebuilds that actually entered and completed;
they let the single-flight invariant be stated, and do not influence any
transition. -/

/-- Coordinator state of a watch session. -/
structure CoordState where
  pending : List Str
  isRebuilding : Bool
  started : Nat
  finished : Nat

/-- Initial state of a watch session (`changedFiles: new Set(),
isRebuilding: false`). -/
def initCoord : CoordState :=
  { pending := [], isRebuilding := false, started := 0, finished := 0 }

/-- `ctx.changedFiles.add(filePath)`: a JS `Set` appends an element not
already present and keeps insertion order. -/
def addPending (s : CoordState) (p : Str) : CoordState :=
  if s.pending.contains p then s else { s with pending := s.pending ++ [p] }

/-- The synchronous entry of `runRebuild`: if a rebuild is in flight the
request returns immediately (`none`: no build runs, the state — and in
particular the pending set — is untouched); otherwise the flag is set,
the pending set is snapshotted (`Array.from(ctx.changedFiles)`) and then
cleared, and the returned snapshot is handed to the build. -/
def rebuildEnter (s : CoordState) : CoordState × Option (List Str) :=
  if s.isRebuilding then (s, none)
  else
    ({ s with isRebuilding := true, pending := [], started := s.started + 1 },
     some s.pending)

/-- Completion of an in-flight `runRebuild` (its `finally` block):
the flag is dropped.  The guard makes the function total; the event
only arises for a build that entered. -/
def rebuildFinish (s : CoordState) : CoordState :=
  if s.isRebuilding then
    { s with isRebuilding := false, finished := s.finished + 1 }
  else s

/-- Events of the single-threaded watch run loop: a chokidar
add/change/unlink notification, the debounce timer firing (which calls
`runRebuild`), and the completion of an in-flight build. -/
inductive WatchEvent where
  | fileChange (p : Str)
  | debounceFire
  | buildDone

/-- One step of the watch event loop. -/
def watchStep (s : CoordState) : WatchEvent → CoordState
  | .fileChange p => addPending s p
  | .debounceFire => (rebuildEnter s).1
  | .buildDone => rebuildFinish s

/-- Run the event loop from a state over a list of events. -/
def watchRun (s : CoordState) : List WatchEvent → CoordState
  | [] => s
  | e :: es => watchRun (watchStep s e) es

/-- Single-flight: the number of rebuilds that entered exceeds the
number that completed exactly when one is in flight — never by more
than one. -/
def singleFlight (s : CoordState) : Prop :=
  (s.isRebuilding = true → s.started = s.finished + 1) ∧
  (s.isRebuilding = false → s.started = s.finished)

/-! ## Lemmas about the split/join scan -/

theorem jsSplitAux_nil (s0 : Char) (stail : Str) :
    jsSplitAux s0 stail [] = [[]] := by
  rw [jsSplitAux.eq_def]

/-- A highlighter stub that recognizes no language. -/
def hlStub : Hljs :=
  { getLanguage := fun _ => false, highlight := fun _ _ => .error () }

/-- A highlighter stub that claims every language and always throws. -/
def hlThrow : Hljs :=
  { getLanguage := fun _ => true, highlight := fun _ _ => .error () }

/-- A default-renderer stub that brackets the token type. -/
def drStub : Token → Str := fun t => str "[" ++ t.type ++ str "]"

/-- An inline-renderer stub with constant output. -/
def riStub : List Token → Str := fun _ => str "T"

/-- A concrete fence token with no info string and content `x`. -/
def fenceTokX : Token :=
  { type := str "fence", tag := str "code", content := str "x",
    info := str "", children := none }

/-- A concrete heading-open token. -/
def tokHeadOpen : Token :=
  { type := str "heading_open", tag := str "h2", content := [],
    info := [], children := none }

/-- A concrete paragraph-open token. -/
def tokParaOpen : Token :=
  { type := str "paragraph_open", tag := str "p", content := [],
    info := [], children := none }

/-- A concrete inline token with no children. -/
def tokInline : Token :=
  { type := str "inline", tag := [], content := [], info := [],
    children := some [] }

/-- A concrete token that is not a heading/paragraph close. -/
def tokOther : Token :=
  { type := str "bullet_list_open", tag := str "ul", content := [],
    info := [], children := none }

/-! ## Claim C1 -/

/-- Claim C1: for every `codeblock` template containing the raw
placeholder `\x7b\x7b\x7b code \x7d\x7d\x7d`, rendering the fence
variables through `applyTemplateWithRawHtml` first substitutes the
highlighted markup verbatim — never HTML-escaped — at every occurrence
of the raw `code` placeholder, and the escaped pass then replaces every
`\x7b\x7b lang \x7d\x7d` and `\x7b\x7b raw \x7d\x7d` occurrence
with the HTML-escaped language and original code text; the `code`
variable is skipped by the escaped pass. -/
theorem c1_code_slot_verbatim (tm : Templates) (t lang code raw : Str)
    (v : Bool) (ht : getTemplate tm (str "codeblock") = some t)
    (hc : containsSub t (rawPh (str "code")) = true) :
    applyTemplateWithRawHtml tm (str "codeblock")
        [(str "lang", lang), (str "code", code), (str "raw", raw)]
        [str "code"] v =
      jsSplitJoin
        (jsSplitJoin (jsSplitJoin t (rawPh (str "code")) code)
          (varPh (str "lang")) (escapeHtml lang))
        (varPh (str "raw")) (escapeHtml raw) := by
  have h1 : ¬(str "lang" = str "code") := by decide
  have h2 : ¬(str "raw" = str "code") := by decide
  have h3 : (str "code" == str "lang") = false := by decide
  simp [applyTemplateWithRawHtml, ht, hc, List.lookup, List.contains,
    h1, h2, h3]

/-- Witness for C1 at a concrete template and fence values: the
highlighted markup (containing `<span>`) survives verbatim while the
`raw` slot is escaped. -/
theorem c1_code_slot_verbatim_witness :
    applyTemplateWithRawHtml
        [(str "codeblock",
          str "<div>\x7b\x7b\x7b code \x7d\x7d\x7d|\x7b\x7b raw \x7d\x7d</div>")]
        (str "codeblock")
        [(str "lang", str "ts"), (str "code", str "<span>a&b</span>"),
         (str "raw", str "a&b")] [str "code"] false =
      jsSplitJoin
        (jsSplitJoin
          (jsSplitJoin
            (str "<div>\x7b\x7b\x7b code \x7d\x7d\x7d|\x7b\x7b raw \x7d\x7d</div>")
            (rawPh (str "code")) (str "<span>a&b</span>"))
          (varPh (str "lang")) (escapeHtml (str "ts")))
        (varPh (str "raw")) (escapeHtml (str "a&b")) := by
  exact c1_code_slot_verbatim _ _ (str "ts") (str "<span>a&b</span>")
    (str "a&b") false rfl (by decide)

/-! ## Claim C10 -/

/-- Claim C10: `applyTemplateWithRawHtml` returns the empty string for a
missing template, and whenever the substituted `codeblock` template
result is the empty string — in particular for an empty template file —
`renderFence` falls back to the default wrapper, because the JS
truthiness test `if (template)` cannot distinguish the two cases. -/
theorem c10_empty_template_falls_back (hl : Hljs) (tm : Templates)
    (tok : Token) (v : Bool) :
    (∀ tag vars rawVars, getTemplate tm tag = none →
      applyTemplateWithRawHtml tm tag vars rawVars v = []) ∧
    (applyTemplateWithRawHtml tm (str "codeblock") (fenceVars hl tok)
        [str "code"] v = [] →
      renderFence hl tm tok v =
        defaultFenceWrapper (fenceRawLang tok.info)
          (fenceHighlight hl tok.content (fenceRawLang tok.info)).1
          (fenceHighlight hl tok.content (fenceRawLang tok.info)).2) := by
  constructor
  · intro tag vars rawVars h
    simp [applyTemplateWithRawHtml, h]
  · intro h
    simp [renderFence, h]

/-- Witness for C10: with the registry mapping `codeblock` to the empty
template, the substituted result is empty and the fence renders with
the default wrapper. -/
theorem c10_empty_template_falls_back_witness :
    applyTemplateWithRawHtml [(str "codeblock", [])] (str "codeblock")
        (fenceVars hlStub fenceTokX) [str "code"] false = [] ∧
    renderFence hlStub [(str "codeblock", [])] fenceTokX false =
      defaultFenceWrapper (fenceRawLang fenceTokX.info)
        (fenceHighlight hlStub fenceTokX.content
          (fenceRawLang fenceTokX.info)).1
        (fenceHighlight hlStub fenceTokX.content
          (fenceRawLang fenceTokX.info)).2 ∧
    defaultFenceWrapper (fenceRawLang fenceTokX.info)
        (fenceHighlight hlStub fenceTokX.content
          (fenceRawLang fenceTokX.info)).1
        (fenceHighlight hlStub fenceTokX.content
          (fenceRawLang fenceTokX.info)).2 =
      str "<pre><code class=\"hljs\">x</code></pre>\n" := by
  have hempty : applyTemplateWithRawHtml [(str "codeblock", [])]
      (str "codeblock") (fenceVars hlStub fenceTokX) [str "code"] false
      = [] := by
    simp [applyTemplateWithRawHtml, getTemplate, List.lookup,
      applyTemplateWithRawHtml, containsSub, startsWith, rawPh, varPh, str,
      jsSplitJoin, jsSplit, jsSplitAux_nil, joinSep, fenceVars,
      List.contains]
  refine ⟨hempty, ?_, by decide⟩
  exact (c10_empty_template_falls_back hlStub [(str "codeblock", [])]
    fenceTokX false).2 hempty

/-- The default wrapper with `isSupported = false` carries no
`language-*` class. -/
theorem defaultFenceWrapper_no_class (r e : Str) :
    defaultFenceWrapper r false e =
      str "<pre><code class=\"hljs\">" ++ e ++ str "</code></pre>\n" := by
  simp [defaultFenceWrapper, str]

/-! ## Claim C8 -/

/-- Claim C8: a highlighter exception never propagates out of
`renderFence` (the embedded highlight attempt is total, consuming the
`Except`): when the highlighter recognizes the language but the
highlight call throws, the result is the HTML-escaped original code with
`isSupported = false`, and with no `codeblock` template the default
wrapper therefore carries no `language-*` class. -/
theorem c8_highlighter_throw_degrades (hl : Hljs) (tm : Templates)
    (tok : Token) (v : Bool)
    (hknown : hl.getLanguage (fenceRawLang tok.info) = true)
    (hthrow : hl.highlight tok.content (fenceRawLang tok.info) = .error ()) :
    fenceHighlight hl tok.content (fenceRawLang tok.info) =
      (false, escapeHtml tok.content) ∧
    (getTemplate tm (str "codeblock") = none →
      renderFence hl tm tok v =
        str "<pre><code class=\"hljs\">" ++ escapeHtml tok.content ++
          str "</code></pre>\n") := by
  have hfh : fenceHighlight hl tok.content (fenceRawLang tok.info) =
      (false, escapeHtml tok.content) := by
    by_cases hr : fenceRawLang tok.info = []
    · simp [fenceHighlight, hr]
    · simp [fenceHighlight, hr, hknown, hthrow]
  refine ⟨hfh, fun hnone => ?_⟩
  have hempty : applyTemplateWithRawHtml tm (str "codeblock")
      (fenceVars hl tok) [str "code"] v = [] := by
    simp [applyTemplateWithRawHtml, hnone]
  rw [renderFence, hempty]
  simp [hfh, defaultFenceWrapper_no_class]

/-- Witness for C8: a highlighter that recognizes every language and
always throws still renders the fence, escaping the content. -/
theorem c8_highlighter_throw_degrades_witness :
    fenceHighlight hlThrow fenceTokX.content
      (fenceRawLang fenceTokX.info) = (false, escapeHtml fenceTokX.content) ∧
    renderFence hlThrow [] fenceTokX false =
      str "<pre><code class=\"hljs\">" ++ escapeHtml fenceTokX.content ++
        str "</code></pre>\n" := by
  refine ⟨(c8_highlighter_throw_degrades hlThrow [] fenceTokX false rfl
    rfl).1, ?_⟩
  exact (c8_highlighter_throw_degrades hlThrow [] fenceTokX false rfl
    rfl).2 rfl

/-! ## Claim C5 -/

/-- Claim C5: with an empty info-string the resolved fence language is
the literal string `text`; with an unrecognized (or absent) language the
highlight result is the HTML-escaped code with `isSupported = false`, so
the default wrapper carries no `language-*` class; and `renderFence`
depends on the info-string only through its first whitespace-delimited
token. -/
theorem c5_unsupported_language (hl : Hljs) (tm : Templates) (tok : Token)
    (v : Bool) :
    (tok.info = [] → fenceLang tok.info = str "text") ∧
    (hl.getLanguage (fenceRawLang tok.info) = false →
      fenceHighlight hl tok.content (fenceRawLang tok.info) =
        (false, escapeHtml tok.content)) ∧
    (hl.getLanguage (fenceRawLang tok.info) = false →
      getTemplate tm (str "codeblock") = none →
      renderFence hl tm tok v =
        str "<pre><code class=\"hljs\">" ++ escapeHtml tok.content ++
          str "</code></pre>\n") ∧
    (∀ info2, fenceRawLang info2 = fenceRawLang tok.info →
      renderFence hl tm
          { tok with info := info2 } v = renderFence hl tm tok v) := by
    refine ⟨?_, ?_, ?_, ?_⟩
    · intro h
      simp [fenceLang, fenceRawLang, h, jsTrim, str]
    · intro h
      by_cases hr : fenceRawLang tok.info = []
      · simp [fenceHighlight, hr]
      · simp [fenceHighlight, hr, h]
    · intro h hnone
      have hfh : fenceHighlight hl tok.content (fenceRawLang tok.info) =
          (false, escapeHtml tok.content) := by
        by_cases hr : fenceRawLang tok.info = []
        · simp [fenceHighlight, hr]
        · simp [fenceHighlight, hr, h]
      have hempty : applyTemplateWithRawHtml tm (str "codeblock")
          (fenceVars hl tok) [str "code"] v = [] := by
        simp [applyTemplateWithRawHtml, hnone]
      rw [renderFence, hempty]
      simp [hfh, defaultFenceWrapper_no_class]
    · intro info2 h
      have hlang : fenceLang info2 = fenceLang tok.info := by
        simp [fenceLang, h]
      simp [renderFence, fenceVars, h, hlang]

/-- Witness for C5 at an empty info-string, an unrecognizing
highlighter, content `<script>`, and a second info-string with the same
first token; the claim's escaping example is evaluated explicitly. -/
theorem c5_unsupported_language_witness :
    fenceLang (str "") = str "text" ∧
    renderFence hlStub []
        { type := str "fence", tag := str "code",
          content := str "<script>", info := str "", children := none }
        false =
      str "<pre><code class=\"hljs\">" ++ escapeHtml (str "<script>") ++
        str "</code></pre>\n" ∧
    escapeHtml (str "<script>") = str "&lt;script&gt;" := by
  refine ⟨?_, ?_, by decide⟩
  · exact (c5_unsupported_language hlStub []
      { type := str "fence", tag := str "code",
        content := str "<script>", info := str "", children := none }
      false).1 rfl
  · exact ((c5_unsupported_language hlStub []
      { type := str "fence", tag := str "code",
        content := str "<script>", info := str "", children := none }
      false).2.2.1) rfl rfl


/-! ## Unfolding lemmas for the token walk -/

theorem transformMarkdownToHtml_nil (hl : Hljs) (tm : Templates) (dr : Token → Str)
    (ri : List Token → Str) (v : Bool) :
    transformMarkdownToHtml hl tm dr ri v [] = [] := rfl

theorem transformMarkdownToHtml_heading_pair (hl : Hljs) (tm : Templates)
    (dr : Token → Str) (ri : List Token → Str) (v : Bool)
    (tok inline cl : Token) (rest : List Token)
    (hH : tok.type = str "heading_open")
    (hI : inline.type = str "inline") :
    transformMarkdownToHtml hl tm dr ri v (tok :: inline :: cl :: rest) =
      applyTemplatePlaceholder tm (jsToLowerStr tok.tag)
        (headingVars (jsToLowerStr tok.tag)
          (ri (inline.children.getD []))
          (slugify (ri (inline.children.getD [])))) v ++
      transformMarkdownToHtml hl tm dr ri v rest := by
  conv_lhs => rw [transformMarkdownToHtml]
  rw [if_pos hH, if_pos hI]

theorem transformMarkdownToHtml_heading_skip (hl : Hljs) (tm : Templates)
    (dr : Token → Str) (ri : List Token → Str) (v : Bool) (tok : Token)
    (rest : List Token) (hH : tok.type = str "heading_open")
    (hhead : ∀ r ∈ rest.head?, r.type ≠ str "inline") :
    transformMarkdownToHtml hl tm dr ri v (tok :: rest) =
      dr tok ++ transformMarkdownToHtml hl tm dr ri v rest := by
  cases rest with
  | nil =>
    conv_lhs => rw [transformMarkdownToHtml]
    rw [if_pos hH, transformMarkdownToHtml_nil, List.append_nil]
  | cons r rs =>
    have hr : r.type ≠ str "inline" := hhead r (by simp)
    cases rs with
    | nil =>
      conv_lhs => rw [transformMarkdownToHtml]
      rw [if_pos hH, if_neg hr]
    | cons q qs =>
      conv_lhs => rw [transformMarkdownToHtml]
      rw [if_pos hH, if_neg hr]

theorem transformMarkdownToHtml_paragraph_pair (hl : Hljs) (tm : Templates)
    (dr : Token → Str) (ri : List Token → Str) (v : Bool)
    (tok inline cl : Token) (rest : List Token)
    (hP : tok.type = str "paragraph_open")
    (hI : inline.type = str "inline") :
    transformMarkdownToHtml hl tm dr ri v (tok :: inline :: cl :: rest) =
      applyTemplate tm (str "p") (ri (inline.children.getD [])) v ++
      transformMarkdownToHtml hl tm dr ri v rest := by
  have hne : ¬(tok.type = str "heading_open") := by rw [hP]; decide
  conv_lhs => rw [transformMarkdownToHtml]
  rw [if_neg hne, if_pos hP, if_pos hI]

theorem transformMarkdownToHtml_paragraph_skip (hl : Hljs) (tm : Templates)
    (dr : Token → Str) (ri : List Token → Str) (v : Bool) (tok : Token)
    (rest : List Token) (hP : tok.type = str "paragraph_open")
    (hhead : ∀ r ∈ rest.head?, r.type ≠ str "inline") :
    transformMarkdownToHtml hl tm dr ri v (tok :: rest) =
      dr tok ++ transformMarkdownToHtml hl tm dr ri v rest := by
  have hne : ¬(tok.type = str "heading_open") := by rw [hP]; decide
  cases rest with
  | nil =>
    conv_lhs => rw [transformMarkdownToHtml]
    rw [if_neg hne, if_pos hP, transformMarkdownToHtml_nil, List.append_nil]
  | cons r rs =>
    have hr : r.type ≠ str "inline" := hhead r (by simp)
    cases rs with
    | nil =>
      conv_lhs => rw [transformMarkdownToHtml]
      rw [if_neg hne, if_pos hP, if_neg hr]
    | cons q qs =>
      conv_lhs => rw [transformMarkdownToHtml]
      rw [if_neg hne, if_pos hP, if_neg hr]

theorem transformMarkdownToHtml_fence_cons (hl : Hljs) (tm : Templates)
    (dr : Token → Str) (ri : List Token → Str) (v : Bool) (tok : Token)
    (rest : List Token) (hF : tok.type = str "fence") :
    transformMarkdownToHtml hl tm dr ri v (tok :: rest) =
      renderFence hl tm tok v ++ transformMarkdownToHtml hl tm dr ri v rest := by
  have h1 : ¬(tok.type = str "heading_open") := by rw [hF]; decide
  have h2 : ¬(tok.type = str "paragraph_open") := by rw [hF]; decide
  cases rest with
  | nil =>
    conv_lhs => rw [transformMarkdownToHtml]
    rw [if_neg h1, if_neg h2, if_pos hF, transformMarkdownToHtml_nil,
      List.append_nil]
  | cons r rs =>
    cases rs with
    | nil =>
      conv_lhs => rw [transformMarkdownToHtml]
      rw [if_neg h1, if_neg h2, if_pos hF]
    | cons q qs =>
      conv_lhs => rw [transformMarkdownToHtml]
      rw [if_neg h1, if_neg h2, if_pos hF]

/-! ## Claim C4 -/

/-- Claim C4 as stated is false on the code in one detail: the default
fence wrapper is followed by a newline, so the emitted fragment is not
exactly `<pre><code ...>...</code></pre>`. -/
theorem c4_counterexample :
    renderFence hlStub [] fenceTokX false =
      str "<pre><code class=\"hljs\">x</code></pre>\n" ∧
    renderFence hlStub [] fenceTokX false ≠
      str "<pre><code class=\"hljs\">x</code></pre>" := by
  refine ⟨by decide, by decide⟩

/-- Claim C4 (amended): with no registry entry for the tag, a heading
or paragraph block is emitted exactly as `<tag>content</tag>` with the
rendered inline HTML as content, and with no `codeblock` entry a fence
is emitted exactly as the default wrapper — `<pre><code class="hljs">`
plus ` language-<lang>` only when supported — followed by a newline. -/
theorem c4_default_fallbacks (hl : Hljs) (tm : Templates)
    (dr : Token → Str) (ri : List Token → Str) (v : Bool) :
    (∀ tokO inline cl rest, tokO.type = str "heading_open" →
      inline.type = str "inline" →
      getTemplate tm (jsToLowerStr tokO.tag) = none →
      jsToLowerStr tokO.tag ≠ str "id" →
      transformMarkdownToHtml hl tm dr ri v (tokO :: inline :: cl :: rest) =
        (str "<" ++ jsToLowerStr tokO.tag ++ str ">" ++
          ri (inline.children.getD []) ++
          str "</" ++ jsToLowerStr tokO.tag ++ str ">") ++
        transformMarkdownToHtml hl tm dr ri v rest) ∧
    (∀ tokO inline cl rest, tokO.type = str "paragraph_open" →
      inline.type = str "inline" →
      getTemplate tm (str "p") = none →
      transformMarkdownToHtml hl tm dr ri v (tokO :: inline :: cl :: rest) =
        (str "<p>" ++ ri (inline.children.getD []) ++ str "</p>") ++
        transformMarkdownToHtml hl tm dr ri v rest) ∧
    (∀ tok, getTemplate tm (str "codeblock") = none →
      renderFence hl tm tok v =
        defaultFenceWrapper (fenceRawLang tok.info)
          (fenceHighlight hl tok.content (fenceRawLang tok.info)).1
          (fenceHighlight hl tok.content (fenceRawLang tok.info)).2) ∧
    (∀ r e, defaultFenceWrapper r false e =
      str "<pre><code class=\"hljs\">" ++ e ++ str "</code></pre>\n") ∧
    (∀ r e, defaultFenceWrapper r true e =
      str "<pre><code class=\"hljs language-" ++ r ++ str "\">" ++ e ++
        str "</code></pre>\n") := by
  refine ⟨?_, ?_, ?_, ?_, ?_⟩
  · intro tokO inline cl rest hH hI hnone htag
    rw [transformMarkdownToHtml_heading_pair hl tm dr ri v tokO inline cl rest hH hI]
    have : applyTemplatePlaceholder tm (jsToLowerStr tokO.tag)
        (headingVars (jsToLowerStr tokO.tag)
          (ri (inline.children.getD []))
          (slugify (ri (inline.children.getD [])))) v =
        str "<" ++ jsToLowerStr tokO.tag ++ str ">" ++
          ri (inline.children.getD []) ++
          str "</" ++ jsToLowerStr tokO.tag ++ str ">" := by
      simp [applyTemplatePlaceholder, hnone, headingVars, htag, List.lookup]
    rw [this]
  · intro tokO inline cl rest hP hI hnone
    rw [transformMarkdownToHtml_paragraph_pair hl tm dr ri v tokO inline cl rest
      hP hI]
    have hn2 : getTemplate tm ['p'] = none := by
      simpa [str] using hnone
    have : applyTemplate tm (str "p") (ri (inline.children.getD [])) v =
        str "<p>" ++ ri (inline.children.getD []) ++ str "</p>" := by
      simp [applyTemplate, str, hn2]
    rw [this]
  · intro tok hnone
    have hempty : applyTemplateWithRawHtml tm (str "codeblock")
        (fenceVars hl tok) [str "code"] v = [] := by
      simp [applyTemplateWithRawHtml, hnone]
    rw [renderFence, hempty]
    simp
  · intro r e
    exact defaultFenceWrapper_no_class r e
  · intro r e
    simp [defaultFenceWrapper, str]

/-- Witness for the amended C4: a concrete heading triple with the
empty registry renders exactly as `<h2>T</h2>`, and a fence with the
empty registry as the newline-terminated default wrapper. -/
theorem c4_default_fallbacks_witness :
    transformMarkdownToHtml hlStub [] drStub riStub false
        [tokHeadOpen, tokInline,
         { type := str "heading_close", tag := str "h2", content := [],
           info := [], children := none }] =
      (str "<" ++ jsToLowerStr tokHeadOpen.tag ++ str ">" ++
        riStub (tokInline.children.getD []) ++
        str "</" ++ jsToLowerStr tokHeadOpen.tag ++ str ">") ++
      transformMarkdownToHtml hlStub [] drStub riStub false [] ∧
    renderFence hlStub [] fenceTokX false =
      defaultFenceWrapper (fenceRawLang fenceTokX.info)
        (fenceHighlight hlStub fenceTokX.content
          (fenceRawLang fenceTokX.info)).1
        (fenceHighlight hlStub fenceTokX.content
          (fenceRawLang fenceTokX.info)).2 := by
  constructor
  · exact (c4_default_fallbacks hlStub [] drStub riStub false).1
      tokHeadOpen tokInline _ [] rfl rfl rfl (by decide)
  · exact (c4_default_fallbacks hlStub [] drStub riStub false).2.2.1
      fenceTokX rfl

/-! ## Claim C6 -/

/-- Claim C6 as stated is false on the code: the walker checks only
that the token after a heading-open is an `inline` token, never that
the token after that is the matching close.  On the stream
`heading_open, inline, bullet_list_open` the claim prescribes default
rendering of the open token alone with resumption at the next token,
but the code renders the template path and silently consumes the
non-close third token. -/
theorem c6_counterexample :
    transformMarkdownToHtml hlStub [] drStub riStub false
        [tokHeadOpen, tokInline, tokOther] = str "<h2>T</h2>" ∧
    transformMarkdownToHtml hlStub [] drStub riStub false
        [tokHeadOpen, tokInline, tokOther] ≠
      drStub tokHeadOpen ++
        transformMarkdownToHtml hlStub [] drStub riStub false
          [tokInline, tokOther] := by
  refine ⟨by decide, by decide⟩

/-- Claim C6 (amended): when a heading-open (or paragraph-open) token
is not immediately followed by an inline token, the walker emits the
default rendering for the open token alone and resumes scanning from
the next token; when it is followed by an inline token, the template
path is taken and the token after the inline is consumed without being
checked against the matching close.  The walk is a total function of
the token stream — it never throws. -/
theorem c6_malformed_stream (hl : Hljs) (tm : Templates)
    (dr : Token → Str) (ri : List Token → Str) (v : Bool) :
    (∀ tok rest, tok.type = str "heading_open" →
      (∀ r ∈ rest.head?, r.type ≠ str "inline") →
      transformMarkdownToHtml hl tm dr ri v (tok :: rest) =
        dr tok ++ transformMarkdownToHtml hl tm dr ri v rest) ∧
    (∀ tok rest, tok.type = str "paragraph_open" →
      (∀ r ∈ rest.head?, r.type ≠ str "inline") →
      transformMarkdownToHtml hl tm dr ri v (tok :: rest) =
        dr tok ++ transformMarkdownToHtml hl tm dr ri v rest) ∧
    (∀ tok inline cl rest, tok.type = str "heading_open" →
      inline.type = str "inline" →
      transformMarkdownToHtml hl tm dr ri v (tok :: inline :: cl :: rest) =
        applyTemplatePlaceholder tm (jsToLowerStr tok.tag)
          (headingVars (jsToLowerStr tok.tag)
            (ri (inline.children.getD []))
            (slugify (ri (inline.children.getD [])))) v ++
        transformMarkdownToHtml hl tm dr ri v rest) ∧
    (∀ tok inline cl rest, tok.type = str "paragraph_open" →
      inline.type = str "inline" →
      transformMarkdownToHtml hl tm dr ri v (tok :: inline :: cl :: rest) =
        applyTemplate tm (str "p") (ri (inline.children.getD [])) v ++
        transformMarkdownToHtml hl tm dr ri v rest) := by
  exact ⟨fun tok rest hH hhead =>
      transformMarkdownToHtml_heading_skip hl tm dr ri v tok rest hH hhead,
    fun tok rest hP hhead =>
      transformMarkdownToHtml_paragraph_skip hl tm dr ri v tok rest hP hhead,
    fun tok inline cl rest hH hI =>
      transformMarkdownToHtml_heading_pair hl tm dr ri v tok inline cl rest
        hH hI,
    fun tok inline cl rest hP hI =>
      transformMarkdownToHtml_paragraph_pair hl tm dr ri v tok inline cl rest
        hP hI⟩

/-- Witness for the amended C6: a heading-open followed by a non-inline
token falls back to default rendering of the open token alone, and an
open/inline pair consumes the unchecked third token. -/
theorem c6_malformed_stream_witness :
    transformMarkdownToHtml hlStub [] drStub riStub false [tokHeadOpen, tokOther] =
      drStub tokHeadOpen ++
        transformMarkdownToHtml hlStub [] drStub riStub false [tokOther] ∧
    transformMarkdownToHtml hlStub [] drStub riStub false
        [tokHeadOpen, tokInline, tokOther] =
      applyTemplatePlaceholder [] (jsToLowerStr tokHeadOpen.tag)
        (headingVars (jsToLowerStr tokHeadOpen.tag)
          (riStub (tokInline.children.getD []))
          (slugify (riStub (tokInline.children.getD [])))) false ++
      transformMarkdownToHtml hlStub [] drStub riStub false [] ∧
    transformMarkdownToHtml hlStub [] drStub riStub false
        [tokParaOpen, tokOther] =
      drStub tokParaOpen ++
        transformMarkdownToHtml hlStub [] drStub riStub false [tokOther] ∧
    transformMarkdownToHtml hlStub [] drStub riStub false
        [tokParaOpen, tokInline, tokOther] =
      applyTemplate [] (str "p")
        (riStub (tokInline.children.getD [])) false ++
      transformMarkdownToHtml hlStub [] drStub riStub false [] := by
  refine ⟨?_, ?_, ?_, ?_⟩
  · exact (c6_malformed_stream hlStub [] drStub riStub false).1 tokHeadOpen
      [tokOther] rfl (by intro r hr; simp at hr; subst hr; decide)
  · exact (c6_malformed_stream hlStub [] drStub riStub false).2.2.1
      tokHeadOpen tokInline tokOther [] rfl rfl
  · exact (c6_malformed_stream hlStub [] drStub riStub false).2.1 tokParaOpen
      [tokOther] rfl (by intro r hr; simp at hr; subst hr; decide)
  · exact (c6_malformed_stream hlStub [] drStub riStub false).2.2.2
      tokParaOpen tokInline tokOther [] rfl rfl

/-! ## Claim C2 -/

/-- One event-loop step preserves the single-flight invariant. -/
theorem watchStep_singleFlight (s : CoordState) (e : WatchEvent)
    (h : singleFlight s) : singleFlight (watchStep s e) := by
  obtain ⟨h1, h0⟩ := h
  cases e with
  | fileChange p =>
    simp only [watchStep, addPending]
    by_cases hp : s.pending.contains p = true
    · rw [if_pos hp]
      exact ⟨h1, h0⟩
    · rw [if_neg hp]
      exact ⟨h1, h0⟩
  | debounceFire =>
    simp only [watchStep, rebuildEnter]
    by_cases hr : s.isRebuilding = true
    · simp [hr, singleFlight, h1, h0]
    · rw [Bool.not_eq_true] at hr
      simp [hr, singleFlight, h0 hr]
  | buildDone =>
    simp only [watchStep, rebuildFinish]
    by_cases hr : s.isRebuilding = true
    · simp [hr, singleFlight, h1 hr]
    · rw [Bool.not_eq_true] at hr
      simp [hr, singleFlight, h1, h0]

/-- The single-flight invariant holds along every event trace from a
state satisfying it. -/
theorem watchRun_singleFlight (es : List WatchEvent) (s : CoordState)
    (h : singleFlight s) : singleFlight (watchRun s es) := by
  induction es generalizing s with
  | nil => exact h
  | cons e es ih => exact ih (watchStep s e) (watchStep_singleFlight s e h)

/-- Claim C2: a rebuild request arriving while the rebuilding flag is
set returns without building and leaves the state — in particular the
pending changed-file set — untouched, so those paths stay visible to
the next debounce cycle; a request in the idle state snapshots the
pending set, clears it, and raises the flag; no other event clears the
pending set (completion preserves it, a file change only adds to it);
and along every event trace from the initial state at most one rebuild
is in flight at any instant. -/
theorem c2_single_flight_rebuild :
    (∀ s : CoordState, s.isRebuilding = true → rebuildEnter s = (s, none)) ∧
    (∀ s : CoordState, s.isRebuilding = false →
      (rebuildEnter s).2 = some s.pending ∧
      (rebuildEnter s).1.pending = [] ∧
      (rebuildEnter s).1.isRebuilding = true) ∧
    (∀ s : CoordState, (watchStep s .buildDone).pending = s.pending) ∧
    (∀ (s : CoordState) (p : Str),
      (watchStep s (.fileChange p)).pending =
        if s.pending.contains p then s.pending else s.pending ++ [p]) ∧
    (∀ es : List WatchEvent, singleFlight (watchRun initCoord es)) := by
  refine ⟨?_, ?_, ?_, ?_, ?_⟩
  · intro s h
    simp [rebuildEnter, h]
  · intro s h
    simp [rebuildEnter, h]
  · intro s
    simp only [watchStep, rebuildFinish]
    by_cases hr : s.isRebuilding = true <;> simp [hr]
  · intro s p
    simp only [watchStep, addPending]
    by_cases hp : s.pending.contains p = true
    · rw [if_pos hp, if_pos hp]
    · rw [if_neg hp, if_neg hp]
  · intro es
    exact watchRun_singleFlight es initCoord
      ⟨by simp [initCoord], by simp [initCoord]⟩

/-- Witness for C2 at a concrete busy state and a concrete trace:
a request during a rebuild leaves the pending file recorded, and the
trace file-change → fire → fire (dropped) → done keeps the invariant. -/
theorem c2_single_flight_rebuild_witness :
    rebuildEnter
        { pending := [str "a.md"], isRebuilding := true, started := 1,
          finished := 0 } =
      ({ pending := [str "a.md"], isRebuilding := true, started := 1,
         finished := 0 }, none) ∧
    singleFlight (watchRun initCoord
      [.fileChange (str "a.md"), .debounceFire, .fileChange (str "b.md"),
       .debounceFire, .buildDone]) := by
  constructor
  · exact c2_single_flight_rebuild.1 _ rfl
  · exact c2_single_flight_rebuild.2.2.2.2 _

/-! ## Character-level lemmas for the slugifier -/

theorem char_toNat_ofNat {n : Nat} (h : n.isValidChar) :
    (Char.ofNat n).toNat = n := by
  unfold Char.ofNat
  rw [dif_pos h]
  unfold Char.ofNatAux
  simp [Char.toNat, UInt32.toNat, BitVec.toNat_ofNatLt]

theorem jsToLower_toNat (c : Char) :
    (jsToLower c).toNat =
      if 0x41 ≤ c.toNat ∧ c.toNat ≤ 0x5a then c.toNat + 32 else c.toNat := by
  unfold jsToLower
  split
  · next h => exact char_toNat_ofNat (Or.inl (by omega))
  · next h => rfl

theorem jsToLower_not_upper (c : Char) :
    ¬(0x41 ≤ (jsToLower c).toNat ∧ (jsToLower c).toNat ≤ 0x5a) := by
  rw [jsToLower_toNat]
  split <;> omega

theorem jsToLower_fix (c : Char)
    (h : ¬(0x41 ≤ c.toNat ∧ c.toNat ≤ 0x5a)) : jsToLower c = c := by
  unfold jsToLower
  rw [if_neg h]

theorem jsToLower_idem (c : Char) : jsToLower (jsToLower c) = jsToLower c :=
  jsToLower_fix _ (jsToLower_not_upper c)

/-- The only character that is both JS whitespace and kept by the
slugifier's character class is the ideographic space U+3000. -/
theorem ws_keep_eq_ideographic (c : Char) (hw : jsIsWhitespace c = true)
    (hk : slugKeep c = true) : c.toNat = 0x3000 := by
  simp only [jsIsWhitespace, slugKeep, isWordChar, isCJKPreserved,
    Bool.or_eq_true, Bool.and_eq_true, decide_eq_true_eq] at hw hk
  omega

/-! ## Lemmas about run collapsing -/

theorem collapseRunsAux_mem (p : Char → Bool) (rep : Char) :
    ∀ (l : Str) (b : Bool) (c : Char), c ∈ collapseRunsAux p rep b l →
      c = rep ∨ (c ∈ l ∧ p c = false) := by
  intro l
  induction l with
  | nil => intro b c hc; simp [collapseRunsAux] at hc
  | cons a as ih =>
    intro b c hc
    by_cases hp : p a = true
    · cases b with
      | true =>
        simp only [collapseRunsAux, hp, if_true] at hc
        rcases ih true c hc with h | ⟨hmem, hfa⟩
        · exact Or.inl h
        · exact Or.inr ⟨List.mem_cons_of_mem a hmem, hfa⟩
      | false =>
        simp only [collapseRunsAux, hp, if_true] at hc
        rcases List.mem_cons.mp hc with heq | hc
        · exact Or.inl heq
        · rcases ih true c hc with h | ⟨hmem, hfa⟩
          · exact Or.inl h
          · exact Or.inr ⟨List.mem_cons_of_mem a hmem, hfa⟩
    · rw [Bool.not_eq_true] at hp
      simp only [collapseRunsAux, hp, Bool.false_eq_true, if_false] at hc
      rcases List.mem_cons.mp hc with heq | hc
      · rw [heq]
        exact Or.inr ⟨List.mem_cons_self a as, hp⟩
      · rcases ih false c hc with h | ⟨hmem, hfa⟩
        · exact Or.inl h
        · exact Or.inr ⟨List.mem_cons_of_mem a hmem, hfa⟩

theorem collapseRunsAux_head_true (p : Char → Bool) (rep : Char) :
    ∀ (l : Str) (c : Char),
      (collapseRunsAux p rep true l).head? = some c → p c = false := by
  intro l
  induction l with
  | nil => intro c hc; simp [collapseRunsAux] at hc
  | cons a as ih =>
    intro c hc
    by_cases hp : p a = true
    · simp only [collapseRunsAux, hp, if_true] at hc
      exact ih c hc
    · rw [Bool.not_eq_true] at hp
      simp only [collapseRunsAux, hp, Bool.false_eq_true, if_false,
        List.head?_cons, Option.some_inj] at hc
      rw [← hc]
      exact hp

theorem collapseRunsAux_chain (p : Char → Bool) (rep : Char) :
    ∀ (l : Str) (b : Bool),
      (collapseRunsAux p rep b l).Chain'
        (fun a b => p a = false ∨ p b = false) := by
  intro l
  induction l with
  | nil => intro b; simp [collapseRunsAux]
  | cons a as ih =>
    intro b
    by_cases hp : p a = true
    · cases b with
      | true => simpa only [collapseRunsAux, hp, if_true] using ih true
      | false =>
        simp only [collapseRunsAux, hp, if_true, Bool.false_eq_true,
          if_false]
        rw [List.chain'_cons']
        refine ⟨?_, ih true⟩
        intro y hy
        exact Or.inr (collapseRunsAux_head_true p rep as y hy)
    · rw [Bool.not_eq_true] at hp
      simp only [collapseRunsAux, hp, Bool.false_eq_true, if_false]
      rw [List.chain'_cons']
      exact ⟨fun y _ => Or.inl hp, ih false⟩

/-- Collapsing is the identity on a string whose `p`-characters all
equal the replacement and are never adjacent. -/
theorem collapseRunsAux_id (p : Char → Bool) :
    ∀ (l : Str), (∀ c ∈ l, p c = true → c = '-') →
      l.Chain' (fun a b => ¬(p a = true ∧ p b = true)) →
      collapseRunsAux p '-' false l = l := by
  intro l
  generalize hn : l.length = n
  induction n using Nat.strong_induction_on generalizing l with
  | _ n ih =>
    subst hn
    cases l with
    | nil => intro _ _; rfl
    | cons a as =>
      intro hall hch
      by_cases hp : p a = true
      · have ha : a = '-' := hall a (List.mem_cons_self a as) hp
        subst ha
        simp only [collapseRunsAux, hp, if_true]
        cases as with
        | nil => rfl
        | cons d ds =>
          have hd : p d = false := by
            have hnot := (List.chain'_cons.mp hch).1
            cases hval : p d with
            | true => exact absurd ⟨hp, hval⟩ hnot
            | false => rfl
          simp only [collapseRunsAux, hd, Bool.false_eq_true, if_false]
          have : collapseRunsAux p '-' false ds = ds :=
            ih ds.length (by simp only [List.length_cons]; omega) ds rfl
              (fun c hc hpc => hall c (by simp [hc]) hpc)
              (((List.chain'_cons.mp hch).2).tail)
          rw [this]
      · rw [Bool.not_eq_true] at hp
        simp only [collapseRunsAux, hp, Bool.false_eq_true, if_false]
        have : collapseRunsAux p '-' false as = as :=
          ih as.length (by simp only [List.length_cons]; omega) as rfl
            (fun c hc hpc => hall c (by simp [hc]) hpc)
            (List.chain'_cons'.mp hch).2
        rw [this]

/-! ## Strip and trim lemmas -/

theorem stripLeadHyphen_eq_self {l : Str}
    (h : ∀ c, l.head? = some c → c ≠ '-') : stripLeadHyphen l = l := by
  cases l with
  | nil => rfl
  | cons c cs =>
    simp only [stripLeadHyphen]
    rw [if_neg (h c rfl)]

theorem stripLeadHyphen_subset {l : Str} :
    ∀ c ∈ stripLeadHyphen l, c ∈ l := by
  cases l with
  | nil => simp [stripLeadHyphen]
  | cons a as =>
    intro c hc
    simp only [stripLeadHyphen] at hc
    by_cases ha : a = '-'
    · rw [if_pos ha] at hc
      exact List.mem_cons_of_mem a hc
    · rw [if_neg ha] at hc
      exact hc

theorem stripLeadHyphen_chain {R : Char → Char → Prop} {l : Str}
    (h : l.Chain' R) : (stripLeadHyphen l).Chain' R := by
  cases l with
  | nil => exact h
  | cons a as =>
    simp only [stripLeadHyphen]
    by_cases ha : a = '-'
    · rw [if_pos ha]
      exact h.tail
    · rw [if_neg ha]
      exact h

theorem stripLeadHyphen_head {l : Str}
    (hch : l.Chain' (fun a b => ¬(a = '-' ∧ b = '-'))) :
    ∀ c, (stripLeadHyphen l).head? = some c → c ≠ '-' := by
  cases l with
  | nil => simp [stripLeadHyphen]
  | cons a as =>
    intro c hc
    simp only [stripLeadHyphen] at hc
    by_cases ha : a = '-'
    · rw [if_pos ha] at hc
      cases as with
      | nil => simp at hc
      | cons b bs =>
        rw [List.head?_cons, Option.some_inj] at hc
        intro hceq
        exact (List.chain'_cons.mp hch).1 ⟨ha, by rw [hc]; exact hceq⟩
    · rw [if_neg ha] at hc
      rw [List.head?_cons, Option.some_inj] at hc
      rw [← hc]
      exact ha

theorem stripLeadHyphen_getLast {l : Str}
    (h : ∀ c, l.getLast? = some c → c ≠ '-') :
    ∀ c, (stripLeadHyphen l).getLast? = some c → c ≠ '-' := by
  cases l with
  | nil => simp [stripLeadHyphen]
  | cons a as =>
    intro c hc
    simp only [stripLeadHyphen] at hc
    by_cases ha : a = '-'
    · rw [if_pos ha] at hc
      cases as with
      | nil => simp at hc
      | cons b bs =>
        exact h c (by rw [List.getLast?_cons_cons]; exact hc)
    · rw [if_neg ha] at hc
      exact h c hc

theorem dropWhile_eq_self_of_head {p : Char → Bool} {l : Str}
    (h : ∀ c, l.head? = some c → p c = false) : l.dropWhile p = l := by
  cases l with
  | nil => rfl
  | cons a as =>
    rw [List.dropWhile_cons, if_neg]
    rw [h a rfl]
    simp

theorem jsTrim_eq_self {l : Str}
    (hh : ∀ c, l.head? = some c → jsIsWhitespace c = false)
    (hl : ∀ c, l.getLast? = some c → jsIsWhitespace c = false) :
    jsTrim l = l := by
  unfold jsTrim
  rw [dropWhile_eq_self_of_head hh]
  rw [dropWhile_eq_self_of_head (fun c hc => hl c (by
    rw [List.head?_reverse] at hc
    exact hc))]
  exact List.reverse_reverse l

theorem jsTrim_subset {l : Str} : ∀ c ∈ jsTrim l, c ∈ l := by
  intro c hc
  unfold jsTrim at hc
  rw [List.mem_reverse] at hc
  have hc2 : c ∈ (l.dropWhile jsIsWhitespace).reverse :=
    (List.dropWhile_sublist jsIsWhitespace).subset hc
  rw [List.mem_reverse] at hc2
  exact (List.dropWhile_sublist jsIsWhitespace).subset hc2

theorem chain'_imp_mem {R S : Char → Char → Prop} :
    ∀ l : Str, l.Chain' R →
      (∀ a ∈ l, ∀ b ∈ l, R a b → S a b) → l.Chain' S := by
  intro l
  induction l with
  | nil => intro _ _; trivial
  | cons a as ih =>
    intro hch hmem
    rw [List.chain'_cons'] at hch ⊢
    obtain ⟨h1, h2⟩ := hch
    refine ⟨?_, ih h2 (fun x hx y hy => hmem x (by simp [hx]) y
      (by simp [hy]))⟩
    intro y hy
    exact hmem a (by simp) y
      (List.mem_cons_of_mem a (List.mem_of_mem_head? hy)) (h1 y hy)

/-! ## The slugifier's output invariant -/

theorem char_eq_of_toNat_eq {a b : Char} (h : a.toNat = b.toNat) : a = b := by
  apply Char.ext
  exact UInt32.ext h

theorem map_eq_self_of_fix {f : Char → Char} :
    ∀ l : Str, (∀ c ∈ l, f c = c) → l.map f = l := by
  intro l
  induction l with
  | nil => intro _; rfl
  | cons a as ih =>
    intro h
    simp only [List.map_cons]
    rw [h a (by simp), ih (fun c hc => h c (by simp [hc]))]

/-- Every character of a slug is a hyphen or a kept character fixed by
lowercasing. -/
theorem slugify_chars (x : Str) :
    ∀ c ∈ slugify x, c = '-' ∨ (slugKeep c = true ∧ jsToLower c = c) := by
  intro c hc
  unfold slugify stripEdgeHyphens at hc
  rw [List.mem_reverse] at hc
  have hcb := stripLeadHyphen_subset _ hc
  rw [List.mem_reverse] at hcb
  have hcc := stripLeadHyphen_subset _ hcb
  unfold collapseRuns at hcc
  rcases collapseRunsAux_mem _ '-' _ false c hcc with h | ⟨hc2, _⟩
  · exact Or.inl h
  rcases collapseRunsAux_mem _ '-' _ false c hc2 with h | ⟨hc3, hbad⟩
  · exact Or.inl h
  have hkeep : slugKeep c = true := by
    cases hval : slugKeep c with
    | true => rfl
    | false => rw [hval] at hbad; simp at hbad
  have hc4 := jsTrim_subset _ hc3
  unfold jsToLowerStr at hc4
  rw [List.mem_map] at hc4
  obtain ⟨c0, _, rfl⟩ := hc4
  exact Or.inr ⟨hkeep, jsToLower_idem c0⟩

/-- The two collapse passes leave no adjacent hyphens. -/
theorem slugify_collapsed_chain (x : Str) :
    (collapseRuns (fun c => c = '-') '-'
        (collapseRuns (fun c => !slugKeep c) '-'
          (jsTrim (jsToLowerStr x)))).Chain'
      (fun a b => ¬(a = '-' ∧ b = '-')) := by
  unfold collapseRuns
  refine List.Chain'.imp ?_ (collapseRunsAux_chain _ '-' _ false)
  intro a b h
  rintro ⟨ha, hb⟩
  rcases h with h | h
  · rw [ha] at h
    simp at h
  · rw [hb] at h
    simp at h

/-- The slug has no two adjacent hyphens. -/
theorem slugify_chain (x : Str) :
    (slugify x).Chain' (fun a b => ¬(a = '-' ∧ b = '-')) := by
  unfold slugify stripEdgeHyphens
  have h5 := stripLeadHyphen_chain (slugify_collapsed_chain x)
  have h6 : ((stripLeadHyphen (collapseRuns (fun c => c = '-') '-'
      (collapseRuns (fun c => !slugKeep c) '-'
        (jsTrim (jsToLowerStr x))))).reverse).Chain'
      (fun a b => ¬(a = '-' ∧ b = '-')) := by
    rw [List.chain'_reverse]
    refine List.Chain'.imp ?_ h5
    intro a b h
    rintro ⟨hb, ha⟩
    exact h ⟨ha, hb⟩
  have h7 := stripLeadHyphen_chain h6
  rw [List.chain'_reverse]
  refine List.Chain'.imp ?_ h7
  intro a b h
  rintro ⟨hb, ha⟩
  exact h ⟨ha, hb⟩

/-- The slug neither starts nor ends with a hyphen. -/
theorem slugify_edges (x : Str) :
    (∀ c, (slugify x).head? = some c → c ≠ '-') ∧
    (∀ c, (slugify x).getLast? = some c → c ≠ '-') := by
  have hmhead := stripLeadHyphen_head (slugify_collapsed_chain x)
  have hmchain := stripLeadHyphen_chain (slugify_collapsed_chain x)
  have hrevchain : ((stripLeadHyphen (collapseRuns (fun c => c = '-') '-'
      (collapseRuns (fun c => !slugKeep c) '-'
        (jsTrim (jsToLowerStr x))))).reverse).Chain'
      (fun a b => ¬(a = '-' ∧ b = '-')) := by
    rw [List.chain'_reverse]
    refine List.Chain'.imp ?_ hmchain
    intro a b h
    rintro ⟨hb, ha⟩
    exact h ⟨ha, hb⟩
  have hnhead := stripLeadHyphen_head hrevchain
  have hnlast := stripLeadHyphen_getLast
    (fun c hc => hmhead c (by rw [List.getLast?_reverse] at hc; exact hc))
  constructor
  · intro c hc
    unfold slugify stripEdgeHyphens at hc
    rw [List.head?_reverse] at hc
    exact hnlast c hc
  · intro c hc
    unfold slugify stripEdgeHyphens at hc
    rw [List.getLast?_reverse] at hc
    exact hnhead c hc

/-- Applying the slugifier to a string satisfying the slug invariant —
and not starting or ending with the ideographic space — is the
identity. -/
theorem slugify_fix {l : Str}
    (hchars : ∀ c ∈ l, c = '-' ∨ (slugKeep c = true ∧ jsToLower c = c))
    (hchain : l.Chain' (fun a b => ¬(a = '-' ∧ b = '-')))
    (hhead : ∀ c, l.head? = some c → c ≠ '-')
    (hlast : ∀ c, l.getLast? = some c → c ≠ '-')
    (hheadw : ∀ c, l.head? = some c → c.toNat ≠ 0x3000)
    (hlastw : ∀ c, l.getLast? = some c → c.toNat ≠ 0x3000) :
    slugify l = l := by
  have hnotws : ∀ c ∈ l, c.toNat ≠ 0x3000 → jsIsWhitespace c = false := by
    intro c hc hn
    cases hval : jsIsWhitespace c with
    | false => rfl
    | true =>
      rcases hchars c hc with h | ⟨hk, _⟩
      · rw [h] at hval
        exact absurd hval (by decide)
      · exact absurd (ws_keep_eq_ideographic c hval hk) hn
  have hmap : jsToLowerStr l = l := by
    unfold jsToLowerStr
    refine map_eq_self_of_fix l ?_
    intro c hc
    rcases hchars c hc with h | ⟨_, hfix⟩
    · rw [h]
      decide
    · exact hfix
  have htrim : jsTrim l = l := by
    refine jsTrim_eq_self ?_ ?_
    · intro c hc
      exact hnotws c (List.mem_of_mem_head? (Option.mem_def.mpr hc))
        (hheadw c hc)
    · intro c hc
      exact hnotws c (List.mem_of_getLast?_eq_some hc) (hlastw c hc)
  have h3 : collapseRuns (fun c => !slugKeep c) '-' l = l := by
    unfold collapseRuns
    apply collapseRunsAux_id
    · intro c hc hbadc
      rcases hchars c hc with h | ⟨hk, _⟩
      · exact h
      · rw [hk] at hbadc
        simp at hbadc
    · refine chain'_imp_mem l hchain ?_
      intro a ha b hb hR
      rintro ⟨hba, hbb⟩
      apply hR
      constructor
      · rcases hchars a ha with h | ⟨hk, _⟩
        · exact h
        · rw [hk] at hba
          simp at hba
      · rcases hchars b hb with h | ⟨hk, _⟩
        · exact h
        · rw [hk] at hbb
          simp at hbb
  have h4 : collapseRuns (fun c => c = '-') '-' l = l := by
    unfold collapseRuns
    apply collapseRunsAux_id
    · intro c _ hc
      exact of_decide_eq_true hc
    · refine chain'_imp_mem l hchain ?_
      intro a _ b _ hR
      rintro ⟨ha, hb⟩
      exact hR ⟨of_decide_eq_true ha, of_decide_eq_true hb⟩
  have h5 : stripEdgeHyphens l = l := by
    unfold stripEdgeHyphens
    rw [stripLeadHyphen_eq_self hhead]
    rw [stripLeadHyphen_eq_self
      (fun c hc => hlast c (by rw [List.head?_reverse] at hc; exact hc))]
    exact List.reverse_reverse l
  unfold slugify
  rw [hmap, htrim, h3, h4, h5]

/-! ## Claim C9 -/

/-- Claim C9 as stated is false on the code: `slugify` is not
idempotent.  The ideographic space U+3000 lies inside the preserved
script range, so it survives the character-class replacement, yet it is
JS whitespace, so a U+3000 that becomes leading after the final hyphen
strip is removed by `trim` on a second application:
`slugify "-　a" = "　a"` but `slugify "　a" = "a"`. -/
theorem c9_counterexample :
    slugify (str "-　a") = str "　a" ∧
    slugify (slugify (str "-　a")) = str "a" ∧
    slugify (slugify (str "-　a")) ≠ slugify (str "-　a") := by
  refine ⟨by decide, by decide, by decide⟩

/-- Claim C9 (amended): `slugify` is deterministic (it is a pure
function of its input), and it is idempotent on every input whose slug
does not start or end with the ideographic space U+3000 — the only
JS-whitespace character inside the preserved script range.  In general
idempotency fails (see the counterexample). -/
theorem c9_slugify_idempotent_amended (x : Str)
    (hh : (slugify x).head? ≠ some '　')
    (hl : (slugify x).getLast? ≠ some '　') :
    slugify (slugify x) = slugify x := by
  refine slugify_fix (slugify_chars x) (slugify_chain x)
    (slugify_edges x).1 (slugify_edges x).2 ?_ ?_
  · intro c hc hn
    apply hh
    rw [hc]
    congr 1
    exact char_eq_of_toNat_eq (by rw [hn]; rfl)
  · intro c hc hn
    apply hl
    rw [hc]
    congr 1
    exact char_eq_of_toNat_eq (by rw [hn]; rfl)

/-- Witness for the amended C9 on inputs with ASCII and preserved-range
(Japanese) content. -/
theorem c9_slugify_idempotent_amended_witness :
    slugify (slugify (str "Hello, World!")) = slugify (str "Hello, World!") ∧
    slugify (slugify (str "日本語 タイトル")) =
      slugify (str "日本語 タイトル") := by
  constructor
  · exact c9_slugify_idempotent_amended (str "Hello, World!")
      (by decide) (by decide)
  · exact c9_slugify_idempotent_amended (str "日本語 タイトル")
      (by decide) (by decide)

end MdXformer
